import Mathlib

/-!
Verification development for the db-migrator repository.

The definitions below are a shallow embedding of the Python source under
`src/utils/` (chiefly `sql_generator.py`, `extraction.py`, `audit.py`,
`config.py`).  Pandas dataframes are embedded as Lean lists of row
structures; SQL NULL / Python None / NaN cells are `Option` values;
Python functions that can raise are embedded into `Except String`.
Generated SQL statements are embedded as structured records carrying the
fields the statements interpolate, so that the emission order, the skip
logic and the runtime-guard semantics of the generated scripts can be
reasoned about.
-/

namespace DbMigrator

/-- The apostrophe character (ASCII 39). -/
def apos : Char := Char.ofNat 39

/-- The double-quote character (ASCII 34). -/
def quot : Char := Char.ofNat 34

/-- Python `str.strip()` on a list of characters: drop whitespace from both
ends.  (Defined over `List Char` so that it reduces in the kernel.) -/
def pyStripL (l : List Char) : List Char :=
  ((l.dropWhile Char.isWhitespace).reverse.dropWhile Char.isWhitespace).reverse

/-- Python `str.strip()` on a string. -/
def pyStrip (s : String) : String := ⟨pyStripL s.data⟩

/-- Lexicographic (Python `<`) comparison of strings, over character data. -/
def lexLt : List Char → List Char → Bool
  | [], [] => false
  | [], _ :: _ => true
  | _ :: _, [] => false
  | a :: as, b :: bs => if a = b then lexLt as bs else decide (a < b)

/-- Python string `<`. -/
def pyStrLt (a b : String) : Bool := lexLt a.data b.data

/-- Embedding of `clean_string` (sql_generator.py line 13): `None`/NaN stay
`None`, otherwise the string is stripped and an empty result becomes `None`. -/
def clean_string (v : Option String) : Option String :=
  match v with
  | none => none
  | some s =>
    let c := pyStrip s
    if c = "" then none else some c

/-- Embedding of `generate_username` (sql_generator.py line 37): the part of
the email before the at-sign (`split("@")[0]`), lowercased, with dots
removed. -/
def generate_username (email : Option String) : Option String :=
  match email with
  | none => none
  | some e =>
    let local_part := e.data.takeWhile (fun c => c ≠ '@')
    some ⟨(local_part.map Char.toLower).filter (fun c => c ≠ '.')⟩

/-- Python truthiness of an optional string: `None` and `""` are falsy. -/
def truthyStr (v : Option String) : Bool :=
  match v with
  | none => false
  | some s => s ≠ ""

end DbMigrator

namespace DbMigrator

/-! ### Users migration (sql_generator.py lines 123-337) -/

/-- A row of the extracted users dataframe (the columns selected by
`extract_users`, extraction.py line 150).  Only the fields that the user
INSERT interpolates as scalars are kept as named fields; the many columns
that are copied verbatim into the `legacyData` JSON blob do not influence
the skip logic or the statement count. -/
structure UserRow where
  id : Option String
  email : Option String
  name : Option String
  last_name : Option String
  group_id : Option String
  deriving Repr, DecidableEq

/-- The data interpolated into one guarded user INSERT block
(`generate_user_insert`). -/
structure UserInsert where
  oldId : Option String
  email : String
  username : Option String
  firstName : Option String
  lastName : Option String
  deriving Repr, DecidableEq

/-- Embedding of `generate_user_insert` (sql_generator.py line 123): fields
are cleaned, and the row is skipped (`None`) exactly when the cleaned email
is falsy; otherwise one guarded INSERT block is produced. -/
def generate_user_insert (row : UserRow) : Option UserInsert :=
  let old_id := clean_string row.id
  let email := clean_string row.email
  let first_name := clean_string row.name
  let last_name := clean_string row.last_name
  if truthyStr email then
    some
      { oldId := old_id
        email := email.getD ""
        username := generate_username email
        firstName := first_name
        lastName := last_name }
  else
    none

/-- Stats dictionary returned by `generate_users_migration_sql`. -/
structure UsersMigStats where
  processed : Nat
  skipped : Nat
  deriving Repr, DecidableEq

/-- Embedding of the row loop of `generate_users_migration_sql`
(sql_generator.py lines 320-327): each row for which
`generate_user_insert` returns a statement is written and counted as
processed, the rest are counted as skipped. -/
def generate_users_migration_sql (users_df : List UserRow) :
    UsersMigStats × List UserInsert :=
  let step := fun (acc : UsersMigStats × List UserInsert) (row : UserRow) =>
    match generate_user_insert row with
    | some sql => ({ acc.1 with processed := acc.1.processed + 1 }, acc.2 ++ [sql])
    | none => ({ acc.1 with skipped := acc.1.skipped + 1 }, acc.2)
  users_df.foldl step ({ processed := 0, skipped := 0 }, [])

lemma users_mig_step (st : UsersMigStats) (out : List UserInsert)
    (rows : List UserRow) :
    (rows.foldl
      (fun acc row =>
        match generate_user_insert row with
        | some sql => ({ acc.1 with processed := acc.1.processed + 1 }, acc.2 ++ [sql])
        | none => ({ acc.1 with skipped := acc.1.skipped + 1 }, acc.2))
      (st, out)) =
      ({ processed := st.processed + (rows.countP fun r => (generate_user_insert r).isSome),
         skipped := st.skipped + (rows.countP fun r => (generate_user_insert r).isNone) },
       out ++ rows.filterMap generate_user_insert) := by
  induction rows generalizing st out with
  | nil => simp
  | cons r rs ih =>
    cases h : generate_user_insert r with
    | some sql =>
      simp only [List.foldl_cons, h, List.filterMap_cons, List.countP_cons]
      rw [ih]
      simp [h, Nat.add_comm, Nat.add_assoc, Nat.add_left_comm]
    | none =>
      simp only [List.foldl_cons, h, List.filterMap_cons, List.countP_cons]
      rw [ih]
      simp [h, Nat.add_comm, Nat.add_assoc, Nat.add_left_comm]

/-- `clean_string` never returns the empty string. -/
lemma clean_string_ne_empty (v : Option String) (s : String)
    (h : clean_string v = some s) : s ≠ "" := by
  unfold clean_string at h
  cases v with
  | none => simp at h
  | some e =>
    by_cases he : pyStrip e = ""
    · simp [he] at h
    · simp only [he, if_false, Option.some.injEq] at h
      simpa [← h] using he

/-- A user row is skipped by `generate_user_insert` iff its email cleans to
nothing (null, empty or whitespace-only). -/
lemma user_insert_none_iff (row : UserRow) :
    generate_user_insert row = none ↔ clean_string row.email = none := by
  unfold generate_user_insert truthyStr
  cases h : clean_string row.email with
  | none => simp
  | some s =>
    have hs : s ≠ "" := clean_string_ne_empty _ _ h
    simp [hs]

/-- Length of a `filterMap` counted via `countP`. -/
lemma length_filterMap_eq_countP {α β : Type} (f : α → Option β) (l : List α) :
    (l.filterMap f).length = l.countP (fun a => (f a).isSome) := by
  induction l with
  | nil => simp
  | cons a l ih =>
    cases h : f a with
    | none => simp [List.filterMap_cons, List.countP_cons, h, ih]
    | some b => simp [List.filterMap_cons, List.countP_cons, h, ih]

/-- C3: `generate_users_migration_sql` skips exactly the rows whose email
is null/empty/whitespace after trimming, processes exactly the remaining
rows, and emits exactly one guarded INSERT per processed row. -/
theorem users_migration_skips_exactly_empty_emails (users_df : List UserRow) :
    let result := generate_users_migration_sql users_df
    result.1.skipped = users_df.countP (fun r => clean_string r.email = none) ∧
    result.1.processed = users_df.countP (fun r => clean_string r.email ≠ none) ∧
    result.2 = users_df.filterMap generate_user_insert ∧
    result.2.length = result.1.processed := by
  intro result
  have hres : result =
      ({ processed := users_df.countP fun r => (generate_user_insert r).isSome,
         skipped := users_df.countP fun r => (generate_user_insert r).isNone },
       users_df.filterMap generate_user_insert) := by
    show generate_users_migration_sql users_df = _
    unfold generate_users_migration_sql
    have := users_mig_step { processed := 0, skipped := 0 } [] users_df
    simpa using this
  refine ⟨?_, ?_, ?_, ?_⟩
  · rw [hres]
    exact List.countP_congr fun r _ => by
      simp [Option.isNone_iff_eq_none, user_insert_none_iff]
  · rw [hres]
    exact List.countP_congr fun r _ => by
      simp only [Option.isSome_iff_ne_none, decide_eq_true_eq]
      exact not_congr (user_insert_none_iff r)
  · rw [hres]
  · rw [hres]
    exact length_filterMap_eq_countP generate_user_insert users_df

/-! ### Folders migration (sql_generator.py lines 340-537) -/

/-- A row of the extracted folders dataframe (`extract_folders`,
extraction.py line 207). -/
structure FolderRow where
  id : Option String
  folder_name : Option String
  owner_id : Option String
  parent_id : Option String
  folder_type : Option String
  deriving Repr, DecidableEq

/-- The data interpolated into one guarded folder INSERT block
(`generate_folder_insert`): the legacy id (feeding `uuid_generate_v5`),
the parent legacy id (or NULL), and the owner used by the runtime user
lookup. -/
structure FolderInsert where
  oldId : String
  folderName : Option String
  parentId : Option String
  ownerId : Option String
  folderType : String
  deriving Repr, DecidableEq

/-- Embedding of `generate_folder_insert` (sql_generator.py line 340): the
row is skipped iff the cleaned id is falsy; the parent reference becomes a
deterministic UUID of the cleaned parent id, or NULL when the parent is
falsy. -/
def generate_folder_insert (row : FolderRow) : Option FolderInsert :=
  let old_id := clean_string row.id
  let folder_name := clean_string row.folder_name
  let parent_id := clean_string row.parent_id
  let owner_id := clean_string row.owner_id
  let folder_type := (clean_string row.folder_type).getD "default"
  match old_id with
  | none => none
  | some oid =>
    some
      { oldId := oid
        folderName := folder_name
        parentId := parent_id
        ownerId := owner_id
        folderType := folder_type }

/-- Comparison used by the pandas sort
`sort_values(["parent_id_sort", "id"])` (sql_generator.py line 457): the
`parent_id` column with nulls replaced by the empty string, then the raw
`id` column with nulls last. -/
def folder_key_le (a b : FolderRow) : Bool :=
  let pa := a.parent_id.getD ""
  let pb := b.parent_id.getD ""
  if pa = pb then
    match a.id, b.id with
    | some x, some y => pyStrLt x y || decide (x = y)
    | some _, none => true
    | none, some _ => false
    | none, none => true
  else pyStrLt pa pb

/-- Stable insertion into a sorted list: `a` goes after every element `b`
with `le b a` (ties keep the earlier element first, matching the stable
multi-column pandas sort). -/
def stable_insert {α : Type} (le : α → α → Bool) (a : α) : List α → List α
  | [] => [a]
  | b :: bs => if le b a then b :: stable_insert le a bs else a :: b :: bs

/-- Stable insertion sort. -/
def stable_sort {α : Type} (le : α → α → Bool) : List α → List α
  | [] => []
  | a :: as => stable_insert le a (stable_sort le as)

/-- Stats dictionary returned by `generate_folders_migration_sql`. -/
structure FoldersMigStats where
  processed : Nat
  skipped : Nat
  deriving Repr, DecidableEq

/-- Embedding of `generate_folders_migration_sql` (sql_generator.py line
433): rows are sorted by `(parent_id-or-empty, id)` and each row with a
truthy id yields one guarded INSERT block in that order. -/
def generate_folders_migration_sql (folders_df : List FolderRow) :
    FoldersMigStats × List FolderInsert :=
  let folders_sorted := stable_sort folder_key_le folders_df
  let step := fun (acc : FoldersMigStats × List FolderInsert) (row : FolderRow) =>
    match generate_folder_insert row with
    | some sql => ({ acc.1 with processed := acc.1.processed + 1 }, acc.2 ++ [sql])
    | none => ({ acc.1 with skipped := acc.1.skipped + 1 }, acc.2)
  folders_sorted.foldl step ({ processed := 0, skipped := 0 }, [])

/-- Parent-before-child order of an emitted statement list: every statement
whose parent id is the legacy id of another statement appears strictly
after that statement. -/
def parents_precede_children (stmts : List FolderInsert) : Prop :=
  ∀ i j : Fin stmts.length,
    (stmts.get i).parentId = some ((stmts.get j).oldId) → (j : Nat) < (i : Nat)

/-- Every non-null parent reference of the dataframe is the id of another
row (the claim's notion of a valid hierarchy). -/
def valid_parent_refs (df : List FolderRow) : Prop :=
  ∀ r ∈ df, r.parent_id ≠ none → ∃ q ∈ df, q.id = r.parent_id ∧ q.id ≠ r.id

/-- Three-row folder tree: root `b`, child `a` (parent `b`),
grandchild `c` (parent `a`). -/
def foldersBugInput : List FolderRow :=
  [ { id := some "b", folder_name := some "root", owner_id := some "u1",
      parent_id := none, folder_type := none },
    { id := some "a", folder_name := some "mid", owner_id := some "u1",
      parent_id := some "b", folder_type := none },
    { id := some "c", folder_name := some "leaf", owner_id := some "u1",
      parent_id := some "a", folder_type := none } ]

/-- C1: the sort key `(parent_id-or-empty-string, id)` does NOT place every
parent before its children.  On the valid three-level tree
`b <- a <- c` the emitted order is `b, c, a`: the grandchild `c` is emitted
strictly before its parent `a`, contradicting both the claim and the
source's own docstring ("Folders are sorted to insert parents before
children"). -/
theorem folders_migration_emits_child_before_parent :
    valid_parent_refs foldersBugInput ∧
    ((generate_folders_migration_sql foldersBugInput).2.map
      (fun s => (s.oldId, s.parentId))) =
      [("b", none), ("c", some "a"), ("a", some "b")] ∧
    ¬ parents_precede_children (generate_folders_migration_sql foldersBugInput).2 := by
  refine ⟨?_, by decide, ?_⟩
  · unfold valid_parent_refs foldersBugInput
    decide
  · unfold parents_precede_children
    decide

/-! ### Python substring primitives (for `extract_content_from_document`,
sql_generator.py lines 855-885) -/

/-- Python `sep in s` on character lists: `sep` occurs as a contiguous
subsequence. -/
def containsSeq (sep : List Char) : List Char → Bool
  | [] => sep.isEmpty
  | c :: rest => sep.isPrefixOf (c :: rest) || containsSeq sep rest

/-- Split at the first occurrence of `sep`: the part before and the part
after the separator, or `none` when `sep` does not occur. -/
def splitFirst (sep : List Char) : List Char → Option (List Char × List Char)
  | [] => if sep.isEmpty then some ([], []) else none
  | c :: rest =>
    if sep.isPrefixOf (c :: rest) then some ([], (c :: rest).drop sep.length)
    else
      match splitFirst sep rest with
      | some (a, b) => some (c :: a, b)
      | none => none

/-- Fuelled worker for Python `s.split(sep)`. -/
def pySplitGo (sep : List Char) : Nat → List Char → List (List Char)
  | 0, s => [s]
  | fuel + 1, s =>
    match splitFirst sep s with
    | none => [s]
    | some (a, b) => a :: pySplitGo sep fuel b

/-- Python `s.split(sep)` (non-overlapping, leftmost-first). -/
def pySplit (sep s : List Char) : List (List Char) :=
  pySplitGo sep (s.length + 1) s

/-- Position of the first occurrence of `sep` (Python `s.index(sep)`),
`none` when absent. -/
def firstOccPos (sep : List Char) : List Char → Option Nat
  | [] => if sep.isEmpty then some 0 else none
  | c :: rest =>
    if sep.isPrefixOf (c :: rest) then some 0
    else (firstOccPos sep rest).map (· + 1)

/-- Python slice `s[a:b]` (for `0 ≤ a`, clamped at both ends). -/
def pySlice (a b : Nat) (s : List Char) : List Char :=
  (s.drop a).take (b - a)

/-- The literal marker `original_content:`. -/
def ocMarker : List Char := "original_content:".data

/-- The literal marker `translated_content:`. -/
def tcMarker : List Char := "translated_content:".data

/-- Embedding of `extract_content_from_document` (sql_generator.py line
855): `original_content` is the stripped second element of the split on
`original_content:` when the marker occurs (otherwise the whole text), and
`translated_content` is the stripped text between the first
`translated_content:` and the first `original_content:` when both markers
occur, else `None`. -/
def extract_content_from_document (document_text : List Char) :
    List Char × Option (List Char) :=
  if document_text = [] then ([], none)
  else
    let original :=
      if containsSeq ocMarker document_text then
        let parts := pySplit ocMarker document_text
        if parts.length > 1 then pyStripL (parts.getD 1 []) else document_text
      else document_text
    let translated :=
      if containsSeq tcMarker document_text && containsSeq ocMarker document_text then
        match firstOccPos tcMarker document_text, firstOccPos ocMarker document_text with
        | some start_base, some end_idx =>
          some (pyStripL (pySlice (start_base + tcMarker.length) end_idx document_text))
        | _, _ => none
      else none
    (original, translated)

/-! ### Lemmas about the substring primitives -/

lemma containsSeq_infix_iff (sep s : List Char) :
    containsSeq sep s = true ↔ sep <:+: s := by
  induction s with
  | nil =>
    simp [containsSeq, List.isEmpty_iff]
  | cons c rest ih =>
    simp [containsSeq, List.infix_cons_iff, List.isPrefixOf_iff_prefix, ih]

lemma containsSeq_cons_false {sep : List Char} {c : Char} {t : List Char}
    (h : containsSeq sep (c :: t) = false) : containsSeq sep t = false := by
  unfold containsSeq at h
  exact (Bool.or_eq_false_iff.mp h).2

lemma splitFirst_at_head (sep B : List Char) (hsep : sep ≠ []) :
    splitFirst sep (sep ++ B) = some ([], B) := by
  have hpre : sep.isPrefixOf (sep ++ B) = true :=
    List.isPrefixOf_iff_prefix.mpr (List.prefix_append sep B)
  cases h : sep ++ B with
  | nil =>
    exfalso
    cases sep with
    | nil => exact hsep rfl
    | cons a as => simp at h
  | cons c rest =>
    rw [h] at hpre
    simp only [splitFirst, hpre, if_true]
    rw [← h, List.drop_left]

/-- No occurrence of `sep` can start strictly inside a nonempty `A` in
`A ++ sep ++ B`, given that `sep` does not occur in `A ++ sep.dropLast`. -/
lemma isPrefixOf_false_of_not_contains (sep A B : List Char) (hsep : sep ≠ [])
    (hAne : A ≠ []) (hA : containsSeq sep (A ++ sep.dropLast) = false) :
    sep.isPrefixOf (A ++ sep ++ B) = false := by
  by_contra hb
  rw [Bool.not_eq_false, List.isPrefixOf_iff_prefix] at hb
  have hlen : sep.length ≤ (A ++ sep.dropLast).length := by
    rw [List.length_append, List.length_dropLast]
    have h1 : 1 ≤ A.length := List.length_pos.mpr hAne
    have h2 : 1 ≤ sep.length := List.length_pos.mpr hsep
    omega
  have hdecomp : A ++ sep ++ B = (A ++ sep.dropLast) ++ ([sep.getLast hsep] ++ B) := by
    conv_lhs => rw [← List.dropLast_append_getLast hsep]
    simp [List.append_assoc]
  rw [hdecomp, List.prefix_iff_eq_take, List.take_append_of_le_length hlen,
    ← List.prefix_iff_eq_take] at hb
  have : containsSeq sep (A ++ sep.dropLast) = true :=
    (containsSeq_infix_iff _ _).mpr hb.isInfix
  rw [this] at hA
  exact absurd hA (by decide)

lemma splitFirst_append (sep A B : List Char) (hsep : sep ≠ [])
    (hA : containsSeq sep (A ++ sep.dropLast) = false) :
    splitFirst sep (A ++ sep ++ B) = some (A, B) := by
  induction A with
  | nil => simpa using splitFirst_at_head sep B hsep
  | cons c A ih =>
    have hApre : sep.isPrefixOf ((c :: A) ++ sep ++ B) = false :=
      isPrefixOf_false_of_not_contains sep (c :: A) B hsep (by simp) hA
    have hA' : containsSeq sep (A ++ sep.dropLast) = false :=
      containsSeq_cons_false (by simpa using hA)
    have hrec := ih hA'
    simp only [List.cons_append] at hApre ⊢
    rw [splitFirst, if_neg ?hc, hrec]
    case hc =>
      intro hcon
      have hpr : sep.isPrefixOf (c :: (A ++ sep ++ B)) = true := by
        rw [List.isPrefixOf_iff_prefix]
        simpa [List.append_assoc] using hcon
      rw [hpr] at hApre
      exact absurd hApre (by decide)

lemma splitFirst_eq_none (sep s : List Char) (h : containsSeq sep s = false) :
    splitFirst sep s = none := by
  induction s with
  | nil =>
    unfold containsSeq at h
    unfold splitFirst
    simp [h]
  | cons c rest ih =>
    unfold containsSeq at h
    rw [Bool.or_eq_false_iff] at h
    unfold splitFirst
    rw [if_neg (by simp [h.1]), ih h.2]

lemma pySplitGo_succ (sep : List Char) (fuel : Nat) (s : List Char) :
    pySplitGo sep (fuel + 1) s =
      match splitFirst sep s with
      | none => [s]
      | some (a, b) => a :: pySplitGo sep fuel b := rfl

lemma pySplitGo_two (sep s a b : List Char) (fuel : Nat)
    (h1 : splitFirst sep s = some (a, b)) (h2 : containsSeq sep b = false) :
    pySplitGo sep (fuel + 1) s = [a, b] := by
  rw [pySplitGo_succ, h1]
  show a :: pySplitGo sep fuel b = [a, b]
  cases fuel with
  | zero => rfl
  | succ f => rw [pySplitGo_succ, splitFirst_eq_none sep b h2]

lemma firstOccPos_at_head (sep B : List Char) (hsep : sep ≠ []) :
    firstOccPos sep (sep ++ B) = some 0 := by
  have hpre : sep.isPrefixOf (sep ++ B) = true :=
    List.isPrefixOf_iff_prefix.mpr (List.prefix_append sep B)
  cases h : sep ++ B with
  | nil =>
    exfalso
    cases sep with
    | nil => exact hsep rfl
    | cons a as => simp at h
  | cons c rest =>
    rw [h] at hpre
    simp only [firstOccPos, hpre, if_true]

lemma firstOccPos_append (sep A B : List Char) (hsep : sep ≠ [])
    (hA : containsSeq sep (A ++ sep.dropLast) = false) :
    firstOccPos sep (A ++ sep ++ B) = some A.length := by
  induction A with
  | nil => simpa using firstOccPos_at_head sep B hsep
  | cons c A ih =>
    have hApre : sep.isPrefixOf ((c :: A) ++ sep ++ B) = false :=
      isPrefixOf_false_of_not_contains sep (c :: A) B hsep (by simp) hA
    have hA' : containsSeq sep (A ++ sep.dropLast) = false :=
      containsSeq_cons_false (by simpa using hA)
    have hrec := ih hA'
    simp only [List.cons_append] at hApre ⊢
    rw [firstOccPos, if_neg ?hc2, hrec]
    case hc2 =>
      intro hcon
      have hpr : sep.isPrefixOf (c :: (A ++ sep ++ B)) = true := by
        rw [List.isPrefixOf_iff_prefix]
        simpa [List.append_assoc] using hcon
      rw [hpr] at hApre
      exact absurd hApre (by decide)
    simp [List.length_cons]

lemma pyStripL_cons_ws (c : Char) (l : List Char) (hc : c.isWhitespace = true) :
    pyStripL (c :: l) = pyStripL l := by
  unfold pyStripL
  rw [List.dropWhile_cons, if_pos hc]

lemma pyStripL_append_ws (c : Char) (l : List Char) (hc : c.isWhitespace = true) :
    pyStripL (l ++ [c]) = pyStripL l := by
  unfold pyStripL
  rw [List.dropWhile_append]
  by_cases he : (l.dropWhile Char.isWhitespace).isEmpty
  · rw [if_pos he]
    rw [List.isEmpty_iff] at he
    rw [he]
    simp [List.dropWhile_cons, hc]
  · rw [if_neg he]
    rw [List.reverse_append]
    simp [List.dropWhile_cons, hc]

lemma pyStripL_wrapped (T : List Char) :
    pyStripL ('\n' :: (T ++ ['\n', '\n'])) = pyStripL T := by
  rw [pyStripL_cons_ws _ _ (by decide)]
  have h2 : T ++ ['\n', '\n'] = (T ++ ['\n']) ++ ['\n'] := by simp
  rw [h2, pyStripL_append_ws _ _ (by decide), pyStripL_append_ws _ _ (by decide)]

/-- C5: round-trip content extraction.  (1) On an input of the form
`P ++ "translated_content:" ++ "\n" ++ T ++ "\n\n" ++ "original_content:" ++ "\n" ++ O`
— with the markers not occurring anywhere else — the function returns
original `O` and translated `T`, both stripped of surrounding whitespace.
(2) On an input containing neither marker it returns the full input as the
original content and no translated content. -/
theorem extract_content_round_trip :
    (∀ P T O : List Char,
      containsSeq ocMarker
        ((P ++ tcMarker ++ ('\n' :: (T ++ ['\n', '\n']))) ++ ocMarker.dropLast) = false →
      containsSeq ocMarker ('\n' :: O) = false →
      containsSeq tcMarker (P ++ tcMarker.dropLast) = false →
      extract_content_from_document
          ((P ++ tcMarker ++ ('\n' :: (T ++ ['\n', '\n']))) ++ ocMarker ++ ('\n' :: O)) =
        (pyStripL O, some (pyStripL T))) ∧
    (∀ s : List Char, containsSeq ocMarker s = false → containsSeq tcMarker s = false →
      extract_content_from_document s = (s, none)) := by
  constructor
  · intro P T O h1 h2 h3
    set mid : List Char := '\n' :: (T ++ ['\n', '\n']) with hmid
    set A : List Char := P ++ tcMarker ++ mid with hA
    set tail : List Char := '\n' :: O with htail
    have hocne : ocMarker ≠ [] := by decide
    have htcne : tcMarker ≠ [] := by decide
    have hne : A ++ ocMarker ++ tail ≠ [] := by simp [hocne]
    have hsplit : splitFirst ocMarker (A ++ ocMarker ++ tail) = some (A, tail) :=
      splitFirst_append ocMarker A tail hocne h1
    have hparts : pySplit ocMarker (A ++ ocMarker ++ tail) = [A, tail] := by
      unfold pySplit
      exact pySplitGo_two ocMarker _ A tail _ hsplit h2
    have hocIn : containsSeq ocMarker (A ++ ocMarker ++ tail) = true :=
      (containsSeq_infix_iff _ _).mpr (List.infix_append A ocMarker tail)
    have hassoc : A ++ ocMarker ++ tail = P ++ tcMarker ++ (mid ++ ocMarker ++ tail) := by
      simp [hA, List.append_assoc]
    have htcIn : containsSeq tcMarker (A ++ ocMarker ++ tail) = true := by
      rw [hassoc]
      exact (containsSeq_infix_iff _ _).mpr
        ((List.infix_append P tcMarker (mid ++ ocMarker ++ tail)).trans
          (by simp [List.append_assoc]))
    have hfo : firstOccPos ocMarker (A ++ ocMarker ++ tail) = some A.length :=
      firstOccPos_append ocMarker A tail hocne h1
    have hft : firstOccPos tcMarker (A ++ ocMarker ++ tail) = some P.length := by
      rw [hassoc]
      exact firstOccPos_append tcMarker P (mid ++ ocMarker ++ tail) htcne h3
    have hslice :
        pySlice (P.length + tcMarker.length) A.length (A ++ ocMarker ++ tail) = mid := by
      unfold pySlice
      have hd : A ++ ocMarker ++ tail = (P ++ tcMarker) ++ (mid ++ (ocMarker ++ tail)) := by
        simp [hA, List.append_assoc]
      have hlenA : A.length = P.length + tcMarker.length + mid.length := by
        rw [hA, List.length_append, List.length_append]
      rw [hd]
      have hdl : ((P ++ tcMarker) ++ (mid ++ (ocMarker ++ tail))).drop
          (P.length + tcMarker.length) = mid ++ (ocMarker ++ tail) := by
        have := List.drop_left (P ++ tcMarker) (mid ++ (ocMarker ++ tail))
        rwa [List.length_append] at this
      rw [hdl, hlenA]
      have : P.length + tcMarker.length + mid.length - (P.length + tcMarker.length)
          = mid.length := by omega
      rw [this]
      exact List.take_left mid (ocMarker ++ tail)
    unfold extract_content_from_document
    rw [if_neg hne]
    simp only [hocIn, htcIn, if_true, Bool.and_self, hparts, hfo, hft,
      List.length_cons, List.length_nil, List.getD_cons_succ, List.getD_cons_zero]
    rw [hslice]
    simp only [Nat.lt_add_one, if_true, Nat.one_lt_two, Prod.mk.injEq]
    constructor
    · rw [htail, pyStripL_cons_ws _ _ (by decide)]
    · rw [hmid, pyStripL_wrapped]
  · intro s hoc htc
    unfold extract_content_from_document
    by_cases hs : s = []
    · rw [if_pos hs, hs]
    · rw [if_neg hs]
      simp [hoc, htc]

/-- C5 witness: the round-trip theorem applied at a concrete composite
document field and a concrete marker-free field. -/
theorem extract_content_round_trip_witness :
    extract_content_from_document
        (("excerptKeywords: k\n\n".data ++ tcMarker ++
            ('\n' :: ("hola mundo".data ++ ['\n', '\n']))) ++ ocMarker ++
          ('\n' :: "hello world".data)) =
      (pyStripL "hello world".data, some (pyStripL "hola mundo".data)) ∧
    extract_content_from_document "plain text".data = ("plain text".data, none) :=
  ⟨extract_content_round_trip.1 "excerptKeywords: k\n\n".data "hola mundo".data
      "hello world".data (by decide) (by decide) (by decide),
    extract_content_round_trip.2 "plain text".data (by decide) (by decide)⟩

/-! ### Documents migration (sql_generator.py lines 571-853) and the audit
data-loss-risk summary (audit.py lines 657-711) -/

/-- A row of the extracted documents dataframe; only the columns feeding
the skip decision and the runtime owner lookup are named. -/
structure DocRow where
  doc_id : Option String
  owner_id : Option String
  deriving Repr, DecidableEq

/-- Python f-string rendering of an optional string (`None` prints as the
four-letter text `None`). -/
def pyRenderOptStr : Option String → String
  | none => "None"
  | some s => s

/-- The data interpolated into one guarded document INSERT block
(`generate_document_insert`): the legacy doc id and the literal owner key
used by the runtime lookup
`WHERE metadata->legacyData->>id = ownerKey`. -/
structure DocumentInsert where
  docId : String
  ownerKey : String
  deriving Repr, DecidableEq

/-- Embedding of `generate_document_insert` (sql_generator.py line 571):
the row is skipped iff the cleaned `doc_id` is falsy; otherwise one guarded
INSERT block is emitted whose runtime lookup interpolates the cleaned
owner id. -/
def generate_document_insert (row : DocRow) : Option DocumentInsert :=
  let doc_id := clean_string row.doc_id
  let owner_id := clean_string row.owner_id
  match doc_id with
  | none => none
  | some d => some { docId := d, ownerKey := pyRenderOptStr owner_id }

/-- SQL equality of two nullable varchar values: NULL compares unequal to
everything. -/
def sqlEqOpt : Option String → Option String → Bool
  | some a, some b => a = b
  | _, _ => false

/-- Embedding of the first branch of `audit_data_loss_risk_summary`
(audit.py line 666): documents with no source-users row whose raw `id`
equals the document's raw `owner_id` (SQL `NOT EXISTS`). -/
def audit_documents_without_valid_user (users : List UserRow) (docs : List DocRow) : Nat :=
  docs.countP (fun d => !(users.any (fun u => sqlEqOpt u.id d.owner_id)))

/-- Runtime semantics of the generated document statement's user lookup:
the interpolated owner key matches the `legacyData` id of some migrated
target user (a user for which the users migration emitted an INSERT). -/
def document_runtime_owner_found (users : List UserRow) (k : String) : Bool :=
  (users.filterMap generate_user_insert).any (fun u => u.oldId = some k)

/-- The documents the extraction-plus-SQL-generation pipeline skips for a
missing-owner reason: a statement is generated (the doc has a doc_id) but
its runtime owner lookup finds no migrated user. -/
def documents_skipped_missing_owner (users : List UserRow) (docs : List DocRow) : Nat :=
  docs.countP (fun d =>
    match generate_document_insert d with
    | none => false
    | some st => !(document_runtime_owner_found users st.ownerKey))

/-- Source dataset refuting C2: one user without an email owning one
document. -/
def c2Users : List UserRow :=
  [{ id := some "u1", email := none, name := none, last_name := none, group_id := none }]

/-- The document owned by the email-less user `u1`. -/
def c2Docs : List DocRow := [{ doc_id := some "d1", owner_id := some "u1" }]

/-- C2 counterexample: the audit's `documents without valid user` count
checks only that the raw owner id exists in the source users table, while
the pipeline's runtime lookup matches migrated target users, which exclude
email-less users.  For a document owned by a user without an email the
audit predicts 0 rows at risk but the pipeline skips 1 document. -/
theorem audit_doc_risk_undercounts_pipeline_skips :
    audit_documents_without_valid_user c2Users c2Docs = 0 ∧
    documents_skipped_missing_owner c2Users c2Docs = 1 ∧
    audit_documents_without_valid_user c2Users c2Docs ≠
      documents_skipped_missing_owner c2Users c2Docs := by
  refine ⟨?_, ?_, ?_⟩ <;> decide

/-- A trimmed, nonempty string (on which `clean_string` is the identity). -/
def isCleanStr (s : String) : Prop := pyStrip s = s ∧ s ≠ ""

/-- Boolean check: a nullable id cell is either NULL or already trimmed and
non-empty. -/
def isCleanOptB : Option String → Bool
  | none => true
  | some s => decide (pyStrip s = s) && decide (s ≠ "")

/-- Boolean check: a nullable id cell is non-null, trimmed and non-empty. -/
def isCleanSomeB : Option String → Bool
  | none => false
  | some s => decide (pyStrip s = s) && decide (s ≠ "")

lemma clean_string_of_clean {s : String} (h : isCleanStr s) :
    clean_string (some s) = some s := by
  show (if pyStrip s = "" then none else some (pyStrip s)) = some s
  rw [h.1, if_neg h.2]

lemma generate_user_insert_of_email {u : UserRow}
    (h : clean_string u.email ≠ none) :
    ∃ ins, generate_user_insert u = some ins ∧ ins.oldId = clean_string u.id := by
  cases he : clean_string u.email with
  | none => exact absurd he h
  | some s =>
    have hs : s ≠ "" := clean_string_ne_empty _ _ he
    refine ⟨⟨clean_string u.id, s, generate_username (some s),
      clean_string u.name, clean_string u.last_name⟩, ?_, rfl⟩
    unfold generate_user_insert
    rw [he]
    simp [truthyStr, hs]

/-- C2 amended: when every source user has a non-empty trimmed email,
every user id is either NULL or already trimmed and non-empty, and every
document has a doc_id and a non-null trimmed owner id, the audit count
equals exactly the number of documents the pipeline skips for the
missing-owner reason.  (In general the audit undercounts: documents owned
by email-less users are skipped by the pipeline but not flagged by the
audit.) -/
theorem audit_doc_risk_matches_pipeline_skips
    (users : List UserRow) (docs : List DocRow)
    (hmail : ∀ u ∈ users, clean_string u.email ≠ none)
    (hid : ∀ u ∈ users, isCleanOptB u.id = true)
    (hdoc : ∀ d ∈ docs,
      clean_string d.doc_id ≠ none ∧ isCleanSomeB d.owner_id = true) :
    audit_documents_without_valid_user users docs =
      documents_skipped_missing_owner users docs := by
  unfold audit_documents_without_valid_user documents_skipped_missing_owner
  apply List.countP_congr
  intro d hd
  obtain ⟨hdid, hown⟩ := hdoc d hd
  obtain ⟨o, ho, hoclean⟩ : ∃ o, d.owner_id = some o ∧ isCleanStr o := by
    cases hcase : d.owner_id with
    | none => rw [hcase] at hown; simp [isCleanSomeB] at hown
    | some o =>
      rw [hcase] at hown
      simp only [isCleanSomeB, Bool.and_eq_true, decide_eq_true_eq] at hown
      exact ⟨o, rfl, hown.1, hown.2⟩
  have hgen : generate_document_insert d =
      some { docId := (clean_string d.doc_id).getD "", ownerKey := o } := by
    unfold generate_document_insert
    cases hcd : clean_string d.doc_id with
    | none => exact absurd hcd hdid
    | some dd =>
      simp only [ho, clean_string_of_clean hoclean, Option.getD_some]
      rfl
  have hany : users.any (fun u => sqlEqOpt u.id d.owner_id) =
      document_runtime_owner_found users o := by
    unfold document_runtime_owner_found
    induction users with
    | nil => simp
    | cons u us ih =>
      have hu := hmail u (by simp)
      obtain ⟨ins, hins, hold⟩ := generate_user_insert_of_email hu
      have hrest : us.any (fun u => sqlEqOpt u.id d.owner_id) =
          (us.filterMap generate_user_insert).any (fun v => v.oldId = some o) :=
        ih (fun v hv => hmail v (by simp [hv])) (fun v hv => hid v (by simp [hv]))
      simp only [List.any_cons, List.filterMap_cons, hins, List.any_cons]
      rw [hrest]
      congr 1
      have huid := hid u (by simp)
      cases hu_id : u.id with
      | none =>
        rw [hu_id] at hold
        simp only [clean_string] at hold
        simp [sqlEqOpt, hu_id, ho, hold]
      | some s =>
        have hsclean : isCleanStr s := by
          rw [hu_id] at huid
          simp only [isCleanOptB, Bool.and_eq_true, decide_eq_true_eq] at huid
          exact ⟨huid.1, huid.2⟩
        rw [hu_id, clean_string_of_clean hsclean] at hold
        simp [sqlEqOpt, hu_id, ho, hold]
  rw [hgen]
  show (!(users.any fun u => sqlEqOpt u.id d.owner_id)) = true ↔
      (!(document_runtime_owner_found users o)) = true
  rw [hany]

/-- C2 amended witness: on a clean two-document dataset (one valid owner,
one dangling owner) the audit count and the pipeline skip count agree. -/
theorem audit_doc_risk_matches_pipeline_skips_witness :
    audit_documents_without_valid_user
        [{ id := some "u1", email := some "a@x.com", name := none,
           last_name := none, group_id := none }]
        [{ doc_id := some "d1", owner_id := some "u1" },
         { doc_id := some "d2", owner_id := some "zz" }] =
      documents_skipped_missing_owner
        [{ id := some "u1", email := some "a@x.com", name := none,
           last_name := none, group_id := none }]
        [{ doc_id := some "d1", owner_id := some "u1" },
         { doc_id := some "d2", owner_id := some "zz" }] :=
  audit_doc_risk_matches_pipeline_skips _ _
    (by decide) (by decide) (by decide)

/-! ### Python JSON values and `json.loads` (used with the
`.replace(APOS, QUOTE)` idiom throughout sql_generator.py) -/

/-- A Python JSON value.  Numbers are kept as their literal text. -/
inductive JVal where
  | jnull
  | jbool (b : Bool)
  | jnum (s : String)
  | jstr (s : String)
  | jarr (xs : List JVal)
  | jobj (fields : List (String × JVal))
  deriving Repr

/-- JSON whitespace. -/
def jsonWs (c : Char) : Bool := c = ' ' || c = '\n' || c = '\t' || c = '\r'

/-- Skip JSON whitespace. -/
def skipWs (s : List Char) : List Char := s.dropWhile jsonWs

/-- Scan a JSON string body after the opening quote (standard escapes; the
`\uXXXX` escape is not modelled). -/
def jsonStringGo : Nat → List Char → List Char → Except String (String × List Char)
  | 0, _, _ => .error "ValueError: fuel"
  | fuel + 1, acc, s =>
    match s with
    | [] => .error "ValueError: unterminated string"
    | c :: rest =>
      if c = quot then .ok (⟨acc.reverse⟩, rest)
      else if c = '\\' then
        match rest with
        | [] => .error "ValueError: bad escape"
        | e :: rest2 =>
          if e = 'n' then jsonStringGo fuel ('\n' :: acc) rest2
          else if e = 't' then jsonStringGo fuel (Char.ofNat 9 :: acc) rest2
          else if e = 'r' then jsonStringGo fuel (Char.ofNat 13 :: acc) rest2
          else if e = 'b' then jsonStringGo fuel (Char.ofNat 8 :: acc) rest2
          else if e = 'f' then jsonStringGo fuel (Char.ofNat 12 :: acc) rest2
          else if e = quot || e = '\\' || e = '/' then jsonStringGo fuel (e :: acc) rest2
          else .error "ValueError: unsupported escape"
      else jsonStringGo fuel (c :: acc) rest

/-- Characters that may appear in a JSON number literal. -/
def jsonNumChar (c : Char) : Bool :=
  c.isDigit || c = '-' || c = '+' || c = '.' || c = 'e' || c = 'E'

mutual

/-- Parse one JSON value (recursive descent, fuelled). -/
def jsonValGo : Nat → List Char → Except String (JVal × List Char)
  | 0, _ => .error "ValueError: fuel"
  | fuel + 1, s0 =>
    let s := skipWs s0
    match s with
    | [] => .error "ValueError: unexpected end"
    | c :: rest =>
      if c = quot then
        match jsonStringGo (rest.length + 1) [] rest with
        | .ok (str, r) => .ok (.jstr str, r)
        | .error e => .error e
      else if c = '[' then jsonArrGo fuel rest
      else if c = '{' then jsonObjGo fuel rest
      else if "null".data.isPrefixOf s then .ok (.jnull, s.drop 4)
      else if "true".data.isPrefixOf s then .ok (.jbool true, s.drop 4)
      else if "false".data.isPrefixOf s then .ok (.jbool false, s.drop 5)
      else if c.isDigit || c = '-' then
        .ok (.jnum ⟨s.takeWhile jsonNumChar⟩, s.dropWhile jsonNumChar)
      else .error "ValueError: invalid literal"

/-- Parse an array after the opening bracket. -/
def jsonArrGo : Nat → List Char → Except String (JVal × List Char)
  | 0, _ => .error "ValueError: fuel"
  | fuel + 1, s0 =>
    let s := skipWs s0
    match s with
    | ']' :: rest => .ok (.jarr [], rest)
    | _ =>
      match jsonValGo fuel s with
      | .error e => .error e
      | .ok (v, r) => jsonArrTail fuel [v] r

/-- Parse the remaining comma-separated array elements. -/
def jsonArrTail : Nat → List JVal → List Char → Except String (JVal × List Char)
  | 0, _, _ => .error "ValueError: fuel"
  | fuel + 1, acc, s0 =>
    let s := skipWs s0
    match s with
    | ']' :: rest => .ok (.jarr acc.reverse, rest)
    | ',' :: rest =>
      match jsonValGo fuel rest with
      | .error e => .error e
      | .ok (v, r) => jsonArrTail fuel (v :: acc) r
    | _ => .error "ValueError: expected comma or bracket"

/-- Parse an object after the opening brace. -/
def jsonObjGo : Nat → List Char → Except String (JVal × List Char)
  | 0, _ => .error "ValueError: fuel"
  | fuel + 1, s0 =>
    let s := skipWs s0
    match s with
    | '}' :: rest => .ok (.jobj [], rest)
    | _ =>
      match jsonMember fuel s with
      | .error e => .error e
      | .ok (kv, r) => jsonObjTail fuel [kv] r

/-- Parse the remaining comma-separated object members. -/
def jsonObjTail : Nat → List (String × JVal) → List Char →
    Except String (JVal × List Char)
  | 0, _, _ => .error "ValueError: fuel"
  | fuel + 1, acc, s0 =>
    let s := skipWs s0
    match s with
    | '}' :: rest => .ok (.jobj acc.reverse, rest)
    | ',' :: rest =>
      match jsonMember fuel rest with
      | .error e => .error e
      | .ok (kv, r) => jsonObjTail fuel (kv :: acc) r
    | _ => .error "ValueError: expected comma or brace"

/-- Parse one `"key": value` object member. -/
def jsonMember : Nat → List Char → Except String ((String × JVal) × List Char)
  | 0, _ => .error "ValueError: fuel"
  | fuel + 1, s0 =>
    let s := skipWs s0
    match s with
    | [] => .error "ValueError: unexpected end"
    | c :: rest =>
      if c = quot then
        match jsonStringGo (rest.length + 1) [] rest with
        | .error e => .error e
        | .ok (k, r) =>
          match skipWs r with
          | ':' :: r2 =>
            match jsonValGo fuel r2 with
            | .error e => .error e
            | .ok (v, r3) => .ok ((k, v), r3)
          | _ => .error "ValueError: expected colon"
      else .error "ValueError: expected property name"

end

/-- Embedding of Python `json.loads`: parse one value, then require only
whitespace to follow. -/
def pyJsonParse (s : String) : Except String JVal :=
  match jsonValGo (2 * s.data.length + 2) s.data with
  | .error e => .error e
  | .ok (v, rest) => if skipWs rest = [] then .ok v else .error "ValueError: extra data"

/-- The `.replace(APOS, QUOTE)` idiom applied before `json.loads`
throughout sql_generator.py: every apostrophe becomes a double quote. -/
def pyReplaceQuotes (s : String) : String :=
  ⟨s.data.map (fun c => if c = apos then quot else c)⟩

/-- `json.loads(x.replace(APOS, QUOTE))`. -/
def json_loads_squote (s : String) : Except String JVal :=
  pyJsonParse (pyReplaceQuotes s)

/-- Python `dict.get` on parsed JSON object fields (duplicate keys: the
last occurrence wins, as in `json.loads`). -/
def jget (fields : List (String × JVal)) (k : String) : Option JVal :=
  ((fields.filter (fun p => p.1 = k)).getLast?).map (fun p => p.2)

/-- Python truthiness of a JSON value (`not x`). -/
def pyTruthyJ : JVal → Bool
  | .jnull => false
  | .jbool b => b
  | .jnum s => !(s = "0" || s = "0.0" || s = "-0")
  | .jstr s => s ≠ ""
  | .jarr xs => !xs.isEmpty
  | .jobj fs => !fs.isEmpty

/-- Python truthiness of an optional JSON value (`None` falsy). -/
def pyTruthyJOpt : Option JVal → Bool
  | none => false
  | some v => pyTruthyJ v

/-- Python `str(...)` / f-string rendering of a JSON value (collections are
rendered only schematically; the claims interpolate scalars). -/
def pyStrOfJVal : JVal → String
  | .jnull => "None"
  | .jbool true => "True"
  | .jbool false => "False"
  | .jnum s => s
  | .jstr s => s
  | .jarr _ => "[...]"
  | .jobj _ => "\x7b...\x7d"

/-! ### Chunks and embeddings migration (sql_generator.py lines 888-1254) -/

/-- The `metadata` cell of a chunk/embedding source row: a JSON-encoded
string, an already-decoded dict, or missing/NaN. -/
inductive MetaVal where
  | mstr (s : String)
  | mdict (fields : List (String × JVal))
  | mnone
  deriving Repr

/-- A row of the extracted chunk/embedding dataframe (`extract_embeddings`,
extraction.py line 334). -/
structure ChunkRow where
  id : Option String
  external_id : Option String
  collection : Option String
  document : String
  metadata : MetaVal
  embeddings : Option String
  deriving Repr

/-- Python value of `metadata.get(key)` rendered to the sort/group domain:
`None` (absent key or JSON null) is a NaN-like key, anything else a
scalar. -/
def pyOptFromJ : Option JVal → Option String
  | none => none
  | some .jnull => none
  | some v => some (pyStrOfJVal v)

/-- Is this optional JSON value the given string (Python `==` against a
string literal)? -/
def jEqStrOpt (v : Option JVal) (k : String) : Bool :=
  match v with
  | some (.jstr s) => s = k
  | _ => false

/-- Embedding of the `doc_id_from_metadata` column lambda
(sql_generator.py line 1146): `json.loads` on string metadata is NOT
wrapped in try/except there, so an unparseable string raises; a parsed
non-dict raises on `.get`. -/
def doc_id_from_metadata_cell : MetaVal → Except String (Option String)
  | .mstr s =>
    match json_loads_squote s with
    | .error e => .error e
    | .ok (.jobj fs) => .ok (pyOptFromJ (jget fs "doc_id"))
    | .ok _ => .error "AttributeError: get on non-dict"
  | .mdict fs => .ok (pyOptFromJ (jget fs "doc_id"))
  | .mnone => .ok none

/-- Compute the whole `doc_id_from_metadata` column (`Series.apply`
propagates the first exception). -/
def doc_id_column : List ChunkRow → Except String (List (Option String))
  | [] => .ok []
  | r :: rest =>
    match doc_id_from_metadata_cell r.metadata with
    | .error e => .error e
    | .ok k =>
      match doc_id_column rest with
      | .error e => .error e
      | .ok ks => .ok (k :: ks)

/-- Number of maximal non-whitespace runs (Python `len(s.split())`). -/
def pyWordCountGo : Bool → List Char → Nat
  | _, [] => 0
  | inWord, c :: rest =>
    if c.isWhitespace then pyWordCountGo false rest
    else (if inWord then 0 else 1) + pyWordCountGo true rest

/-- Python `len(s.split())`. -/
def pyWordCount (l : List Char) : Nat := pyWordCountGo false l

/-- The data interpolated into one combined chunk-plus-embedding statement
pair (`generate_chunk_and_embedding_inserts`): the legacy id (feeding the
deterministic chunk UUID), the doc id used by the runtime document lookup,
the chunk index, the extracted contents, and whether an embedding INSERT
is included. -/
structure ChunkEmbInsert where
  legacyId : String
  docId : String
  chunkIndex : Nat
  originalContent : List Char
  translatedContent : Option (List Char)
  charCount : Nat
  wordCount : Nat
  hasEmbedding : Bool
  deriving Repr

/-- Embedding of `generate_chunk_and_embedding_inserts` (sql_generator.py
line 888).  Inside this function the metadata parse IS wrapped in
try/except (falling back to an empty dict), but `.get` on a parsed
non-dict still raises.  The row is skipped (`ok none`) when the cleaned
legacy id is falsy, the metadata type is not `chunk-data`, the doc_id is
falsy, or (with the option set) the embedding is missing. -/
def generate_chunk_and_embedding_inserts (row : ChunkRow) (chunk_index : Nat)
    (skip_empty_embeddings : Bool) : Except String (Option ChunkEmbInsert) :=
  let legacy_id := clean_string row.id
  let metaFields : Except String (List (String × JVal)) :=
    match row.metadata with
    | .mstr s =>
      match json_loads_squote s with
      | .ok (.jobj fs) => .ok fs
      | .ok _ => .error "AttributeError: get on non-dict"
      | .error _ => .ok []
    | .mdict fs => .ok fs
    | .mnone => .ok []
  match metaFields with
  | .error e => .error e
  | .ok fs =>
    let doc_id := jget fs "doc_id"
    let meta_type := jget fs "type"
    if !truthyStr legacy_id || !jEqStrOpt meta_type "chunk-data" then .ok none
    else if !pyTruthyJOpt doc_id then .ok none
    else if skip_empty_embeddings && row.embeddings.isNone then .ok none
    else
      let extracted := extract_content_from_document row.document.data
      let original :=
        if extracted.1 = [] then row.document.data else extracted.1
      let translated :=
        match extracted.2 with
        | some t => if t = [] then none else some t
        | none => none
      .ok (some
        { legacyId := pyRenderOptStr legacy_id
          docId := pyStrOfJVal ((doc_id).getD .jnull)
          chunkIndex := chunk_index
          originalContent := original
          translatedContent := translated
          charCount := original.length
          wordCount := pyWordCount original
          hasEmbedding := row.embeddings.isSome })

/-- Sort comparison of `sort_values(["doc_id_from_metadata", "id"])`
(sql_generator.py line 1151): the computed doc-id key then the raw `id`
column, NaN keys last in each. -/
def optStrNaLastLe (a b : Option String) : Bool :=
  match a, b with
  | some x, some y => pyStrLt x y || decide (x = y)
  | some _, none => true
  | none, some _ => false
  | none, none => true

/-- Key comparison for the chunk sort. -/
def chunk_key_le (a b : ChunkRow × Option String) : Bool :=
  if a.2 = b.2 then optStrNaLastLe a.1.id b.1.id
  else
    match a.2, b.2 with
    | some x, some y => pyStrLt x y
    | some _, none => true
    | none, some _ => false
    | none, none => true

/-- `groupby("doc_id_from_metadata").cumcount()` with NaN keys excluded
from grouping (pandas `dropna=True`): a NaN-key row gets a NaN
`chunk_index`, every other row the count of earlier rows with the same
key. -/
def assignChunkIndexGo (seen : List (Option String)) :
    List (ChunkRow × Option String) → List (ChunkRow × Option String × Option Nat)
  | [] => []
  | (r, k) :: rest =>
    let idx : Option Nat :=
      match k with
      | none => none
      | some s => some (seen.count (some s))
    (r, (k, idx)) :: assignChunkIndexGo (seen ++ [k]) rest

/-- Assign the per-document `chunk_index` column. -/
def assignChunkIndex (l : List (ChunkRow × Option String)) :
    List (ChunkRow × Option String × Option Nat) :=
  assignChunkIndexGo [] l

/-- Stats dictionary returned by `generate_chunks_embeddings_migration_sql`. -/
structure ChunksMigStats where
  chunks_processed : Nat
  embeddings_processed : Nat
  skipped : Nat
  deriving Repr, DecidableEq

/-- The row loop of `generate_chunks_embeddings_migration_sql`
(sql_generator.py lines 1226-1242): `int(row["chunk_index"])` raises
`ValueError` on a NaN index before the per-row generator is even entered. -/
def chunksLoop (skip_empty_embeddings : Bool) :
    List (ChunkRow × Option String × Option Nat) →
    Except String (ChunksMigStats × List ChunkEmbInsert)
  | [] => .ok ({ chunks_processed := 0, embeddings_processed := 0, skipped := 0 }, [])
  | (r, _, idx) :: rest =>
    match idx with
    | none => .error "ValueError: cannot convert float NaN to integer"
    | some i =>
      match generate_chunk_and_embedding_inserts r i skip_empty_embeddings with
      | .error e => .error e
      | .ok none =>
        match chunksLoop skip_empty_embeddings rest with
        | .error e => .error e
        | .ok (st, outs) => .ok ({ st with skipped := st.skipped + 1 }, outs)
      | .ok (some ins) =>
        match chunksLoop skip_empty_embeddings rest with
        | .error e => .error e
        | .ok (st, outs) =>
          .ok ({ st with
                  chunks_processed := st.chunks_processed + 1,
                  embeddings_processed :=
                    st.embeddings_processed + (if ins.hasEmbedding then 1 else 0) },
               ins :: outs)

/-- A chunk dataframe as the caller sees it: the extraction-schema rows
plus any columns added beyond that schema. -/
structure ChunkDF where
  rows : List ChunkRow
  extraColNames : List String
  deriving Repr

/-- Embedding of `generate_chunks_embeddings_migration_sql`
(sql_generator.py line 1120).  The first step assigns a
`doc_id_from_metadata` column on the CALLER's dataframe (line 1146, no
`.copy()`); the sorted frame is a fresh copy, so `chunk_index` is not
visible to the caller.  Returns the generation outcome together with the
caller-visible dataframe after the call. -/
def generate_chunks_embeddings_migration_sql (df : ChunkDF)
    (skip_empty_embeddings : Bool) :
    Except String (ChunksMigStats × List ChunkEmbInsert) × ChunkDF :=
  match doc_id_column df.rows with
  | .error e => (.error e, df)
  | .ok keys =>
    let dfAfter : ChunkDF :=
      { df with extraColNames := df.extraColNames ++ ["doc_id_from_metadata"] }
    let sorted := stable_sort chunk_key_le (df.rows.zip keys)
    let indexed := assignChunkIndex sorted
    (chunksLoop skip_empty_embeddings indexed, dfAfter)

/-- A single well-formed `chunk-data` row whose metadata simply lacks a
`doc_id`. -/
def chunksBugRow : ChunkRow :=
  { id := some "e1", external_id := none, collection := none,
    document := "original_content:\nhello", metadata := .mdict [("type", .jstr "chunk-data")],
    embeddings := none }

/-- The dataframe holding just that row. -/
def chunksBugInput : ChunkDF := { rows := [chunksBugRow], extraColNames := [] }

/-- C7: a row whose metadata carries no resolvable doc_id makes the WHOLE
generation raise `ValueError` instead of being counted as skipped: the
row's NaN group key is dropped by `groupby("doc_id_from_metadata")`, its
`chunk_index` cell becomes NaN, and `int(NaN)` raises — even though the
per-row generator itself would have skipped the row gracefully (second
conjunct). -/
theorem chunks_migration_raises_on_missing_doc_id :
    (generate_chunks_embeddings_migration_sql chunksBugInput false).1 =
      Except.error "ValueError: cannot convert float NaN to integer" ∧
    generate_chunk_and_embedding_inserts chunksBugRow 0 false = Except.ok none := by
  exact ⟨rfl, rfl⟩

/-- A well-formed single-row dataframe (resolvable doc_id, chunk-data
type). -/
def c9Row : ChunkRow :=
  { id := some "e1", external_id := none, collection := none,
    document := "hello",
    metadata := .mdict [("doc_id", .jstr "d1"), ("type", .jstr "chunk-data")],
    embeddings := some "[0.1, 0.2]" }

/-- The dataframe holding just that row. -/
def c9Input : ChunkDF := { rows := [c9Row], extraColNames := [] }

/-- C9: `generate_chunks_embeddings_migration_sql` mutates the caller's
dataframe: after the call the input dataframe carries a
`doc_id_from_metadata` column it did not have before (the column
assignment at sql_generator.py line 1146 happens on the input object, not
on a copy). -/
theorem chunks_migration_mutates_input_dataframe :
    "doc_id_from_metadata" ∈
      (generate_chunks_embeddings_migration_sql c9Input false).2.extraColNames ∧
    "doc_id_from_metadata" ∉ c9Input.extraColNames := by
  constructor
  · show "doc_id_from_metadata" ∈ (["doc_id_from_metadata"] : List String)
    simp
  · simp [c9Input]

/-! ### Question extraction from the logs JSONB column
(sql_generator.py lines 1257-1278) -/

/-- The placeholder returned when no question text can be extracted. -/
def questionPlaceholder : String := "[no question text]"

/-- The `question` cell as Python sees it: `None`, `NaN`, a string, an
actual decoded list, or a decoded dict. -/
inductive QVal where
  | qnone
  | qnan
  | qstr (s : String)
  | qlist (xs : List JVal)
  | qdict (fields : List (String × JVal))
  deriving Repr

/-- Embedding of `extract_question_from_jsonb` (sql_generator.py line
1257).  The entry guard is `if not question_data or pd.isna(question_data)`:
for an actual list of two or more elements `pd.isna` returns a boolean
ndarray and `or` raises `ValueError` on its ambiguous truth value; an
empty list short-circuits on `not []`, and a one-element list passes the
guard (or is NaN-like) and then fails the `len > 1` check — placeholder
either way.  A dict input is truthy and non-NaN but fails
`isinstance(..., list)` — placeholder. -/
def extract_question_from_jsonb : QVal → Except String JVal
  | .qnone => .ok (.jstr questionPlaceholder)
  | .qnan => .ok (.jstr questionPlaceholder)
  | .qstr s =>
    if s = "" then .ok (.jstr questionPlaceholder)
    else
      match json_loads_squote s with
      | .error _ => .ok (.jstr questionPlaceholder)
      | .ok j =>
        match j with
        | .jarr xs =>
          if xs.length > 1 then
            match xs.get? 1 with
            | some (.jobj fs) =>
              match jget fs "value" with
              | some v => .ok v
              | none => .ok (.jstr questionPlaceholder)
            | _ => .ok (.jstr questionPlaceholder)
          else .ok (.jstr questionPlaceholder)
        | _ => .ok (.jstr questionPlaceholder)
  | .qlist xs =>
    if xs.length ≤ 1 then .ok (.jstr questionPlaceholder)
    else .error "ValueError: ambiguous truth value of a boolean array"
  | .qdict _ => .ok (.jstr questionPlaceholder)

/-- Inputs on which the pandas guard raises: genuine lists of two or more
elements. -/
def isAmbiguousArray : QVal → Bool
  | .qlist xs => decide (2 ≤ xs.length)
  | _ => false

/-- Modelled from the claim's words: the `value` of the element at index 1
of the (decoded) question array, when it exists. -/
def question_idx1_value : QVal → Option JVal
  | .qnone => none
  | .qnan => none
  | .qstr s =>
    if s = "" then none
    else
      match json_loads_squote s with
      | .ok (.jarr xs) =>
        if xs.length > 1 then
          match xs.get? 1 with
          | some (.jobj fs) => jget fs "value"
          | _ => none
        else none
      | _ => none
  | .qlist _ => none
  | .qdict _ => none

/-- C10 counterexample: `extract_question_from_jsonb` is NOT total — on a
genuine two-element list (as a JSONB column decodes to) the
`pd.isna(question_data)` guard produces a boolean array whose truth value
raises `ValueError`. -/
theorem extract_question_raises_on_real_list :
    extract_question_from_jsonb
        (.qlist [.jobj [("value", .jstr "sys")], .jobj [("value", .jstr "What is X?")]]) =
      Except.error "ValueError: ambiguous truth value of a boolean array" := by
  rfl

/-- C10 amended: for every input that is not a genuine list of two or more
elements, the function never raises and returns exactly the index-1
`value` when it is extractable (from the parsed JSON string), and the
placeholder otherwise.  (For genuine short lists the index-1 element does
not exist, so they always yield the placeholder.) -/
theorem extract_question_total_off_long_lists (q : QVal)
    (h : isAmbiguousArray q = false) :
    extract_question_from_jsonb q =
      Except.ok ((question_idx1_value q).getD (.jstr questionPlaceholder)) := by
  cases q with
  | qnone => rfl
  | qnan => rfl
  | qdict fs => rfl
  | qlist xs =>
    have hlen : xs.length ≤ 1 := by
      simp only [isAmbiguousArray, decide_eq_false_iff_not, not_le] at h
      omega
    simp [extract_question_from_jsonb, question_idx1_value, hlen]
  | qstr s =>
    by_cases hs : s = ""
    · simp [extract_question_from_jsonb, question_idx1_value, hs]
    · simp only [extract_question_from_jsonb, question_idx1_value, hs, if_false]
      cases hp : json_loads_squote s with
      | error e => rfl
      | ok j =>
        cases j with
        | jnull => rfl
        | jbool b => rfl
        | jnum n => rfl
        | jstr t => rfl
        | jobj fs => rfl
        | jarr xs =>
          dsimp only
          by_cases hlen : xs.length > 1
          · rw [if_pos hlen, if_pos hlen]
            cases hget : xs.get? 1 with
            | none => rfl
            | some x =>
              cases x with
              | jobj fs =>
                dsimp only
                cases hv : jget fs "value" with
                | none => rfl
                | some v => rfl
              | jnull => rfl
              | jbool b => rfl
              | jnum n => rfl
              | jstr t => rfl
              | jarr ys => rfl
          · rw [if_neg hlen, if_neg hlen]
            rfl

/-- C10 amended witness: the theorem applied at the JSON-string form of a
two-turn question array, together with the concrete extracted value. -/
theorem extract_question_total_off_long_lists_witness :
    extract_question_from_jsonb
        (.qstr "[\x7b'value':'sys'\x7d,\x7b'value':'What is X?'\x7d]") =
      Except.ok ((question_idx1_value
        (.qstr "[\x7b'value':'sys'\x7d,\x7b'value':'What is X?'\x7d]")).getD
          (.jstr questionPlaceholder)) ∧
    question_idx1_value
        (.qstr "[\x7b'value':'sys'\x7d,\x7b'value':'What is X?'\x7d]") =
      some (.jstr "What is X?") :=
  ⟨extract_question_total_off_long_lists _ rfl, rfl⟩

/-! ### Conversations / messages / content blocks migration
(sql_generator.py lines 1281-1624) -/

/-- A row of the extracted logs dataframe (`extract_logs`, extraction.py
line 444).  Timestamps and ordering indices are embedded as comparable
integers; the columns that only feed the assistant metadata JSON blob
(toolkit_settings, is_like, type, bot_id, category, sentiment, source
links) do not influence row counts or the parent chain and are not
named. -/
structure LogRow where
  id : Option String
  user_id : Option String
  chat_id : Option String
  title : Option String
  question : QVal
  question_in_english : Option String
  answer : Option String
  created_at : Option Int
  message_index : Option Int
  question_number : Option Int
  token_amount : Option Int
  deriving Repr

/-- One tuple of the batched conversations INSERT. -/
structure ConvInsert where
  chatId : String
  userKey : String
  title : Option String
  messageCount : Nat
  totalTokens : Int
  deriving Repr, DecidableEq

/-- One tuple of the batched messages INSERT.  `idName` is the name string
fed to `uuid_generate_v5` (`LEGACY-user` / `LEGACY-assistant`);
`parentIdName` likewise references a message by its uuid5 name. -/
structure MsgInsert where
  idName : String
  conversationId : String
  parentIdName : Option String
  role : String
  userKey : String
  deriving Repr, DecidableEq

/-- A fixed default used only to read message lists positionally. -/
def dummyMsg : MsgInsert :=
  { idName := "", conversationId := "", parentIdName := none, role := "", userKey := "" }

/-- One tuple of the batched content-blocks INSERT. -/
structure BlockInsert where
  idName : String
  messageIdName : String
  sequence : Nat
  role : String
  text : String
  deriving Repr, DecidableEq

/-- Stats dictionary returned by
`generate_conversations_logs_migration_sql`. -/
structure ConvMigStats where
  users_processed : Nat
  conversations_processed : Nat
  messages_processed : Nat
  blocks_processed : Nat
  deriving Repr, DecidableEq

/-- Nulls-last `<=` on optional integers (pandas `na_position="last"`). -/
def optIntLe (a b : Option Int) : Bool :=
  match a, b with
  | some x, some y => decide (x ≤ y)
  | some _, none => true
  | none, some _ => false
  | none, none => true

/-- Nulls-last strict `<` on optional integers. -/
def optIntLt (a b : Option Int) : Bool :=
  match a, b with
  | some x, some y => decide (x < y)
  | some _, none => true
  | none, some _ => false
  | none, none => false

/-- The sort key of `sort_values(["message_index", "question_number",
"created_at"], na_position="last")` (sql_generator.py line 1407). -/
def log_key_le (a b : LogRow) : Bool :=
  if a.message_index = b.message_index then
    if a.question_number = b.question_number then optIntLe a.created_at b.created_at
    else optIntLt a.question_number b.question_number
  else optIntLt a.message_index b.message_index

/-- Insert a group key into an ascending duplicate-free key list
(pandas `groupby` sorts group keys and keeps each once). -/
def insertKey (k : String) : List String → List String
  | [] => [k]
  | x :: rest =>
    if pyStrLt x k then x :: insertKey k rest
    else if x = k then x :: rest
    else k :: x :: rest

/-- The sorted distinct group keys of a column. -/
def sortedKeys (xs : List String) : List String :=
  xs.foldl (fun acc k => insertKey k acc) []

/-- Fuelled list chunking (`conversations[i:i+max_records_per_insert]`). -/
def chunkListGo {α : Type} (n : Nat) : Nat → List α → List (List α)
  | 0, _ => []
  | _, [] => []
  | fuel + 1, l => l.take n :: chunkListGo n fuel (l.drop n)

/-- Split a list into consecutive chunks of size `n`. -/
def chunkList {α : Type} (n : Nat) (l : List α) : List (List α) :=
  chunkListGo n (l.length + 1) l

/-- The conversation tuple aggregated over one chat group
(sql_generator.py lines 1412-1429): title from the last sorted row,
`message_count = 2 * rows`, token sum with nulls as 0. -/
def mkConv (c : String) (crows : List LogRow) (u : String) : ConvInsert :=
  { chatId := c
    userKey := u
    title :=
      match crows.getLast? with
      | some latest => clean_string latest.title
      | none => none
    messageCount := crows.length * 2
    totalTokens := crows.foldl (fun acc r => acc + r.token_amount.getD 0) 0 }

/-- The user message tuple of one turn. -/
def mkUserMsg (chatId uk : String) (prev : Option String) (legacy : String) : MsgInsert :=
  { idName := legacy ++ "-user", conversationId := chatId, parentIdName := prev,
    role := "user", userKey := uk }

/-- The assistant message tuple of one turn (parent = the turn's user
message). -/
def mkAsstMsg (chatId uk legacy : String) : MsgInsert :=
  { idName := legacy ++ "-assistant", conversationId := chatId,
    parentIdName := some (legacy ++ "-user"), role := "assistant", userKey := uk }

/-- The user block text: the extracted question, falling back to
`question_in_english` when extraction yielded the placeholder. -/
def uqTextOf (r : LogRow) (uq : JVal) : String :=
  match uq with
  | .jstr s =>
    if s = questionPlaceholder then
      (clean_string r.question_in_english).getD questionPlaceholder
    else s
  | v => pyStrOfJVal v

/-- The user content block of one turn. -/
def mkUserBlock (r : LogRow) (legacy : String) (uq : JVal) : BlockInsert :=
  { idName := legacy ++ "-user-block-0", messageIdName := legacy ++ "-user",
    sequence := 0, role := "user", text := uqTextOf r uq }

/-- The assistant content block of one turn. -/
def mkAsstBlock (r : LogRow) (legacy : String) : BlockInsert :=
  { idName := legacy ++ "-assistant-block-0",
    messageIdName := legacy ++ "-assistant", sequence := 0, role := "assistant",
    text := (clean_string r.answer).getD "" }

/-- The message/content-block loop over one conversation's sorted rows
(sql_generator.py lines 1468-1578): each row yields a user message (parent
= previous turn's assistant message, NULL on the first turn), an assistant
message (parent = this turn's user message), and one content block per
message; the user block's text is the extracted question with the
`question_in_english` fallback.  The question extraction can raise (see
`extract_question_from_jsonb`), which propagates. -/
def conv_msgs (chatId uk : String) (prev : Option String) :
    List LogRow → Except String (List MsgInsert × List BlockInsert)
  | [] => .ok ([], [])
  | r :: rest =>
    let legacy := pyRenderOptStr (clean_string r.id)
    match extract_question_from_jsonb r.question with
    | .error e => .error e
    | .ok uq =>
      match conv_msgs chatId uk (some (legacy ++ "-assistant")) rest with
      | .error e => .error e
      | .ok (ms, bs) =>
        .ok (mkUserMsg chatId uk prev legacy :: mkAsstMsg chatId uk legacy :: ms,
             mkUserBlock r legacy uq :: mkAsstBlock r legacy :: bs)

/-- Emit one batch of conversations: the conversation tuples and, for each
conversation, its message and block tuples (the per-conversation
`prev_assistant_msg_id` chain restarts at NULL). -/
def processConvBatch (u : String) :
    List (String × List LogRow) →
    Except String (List ConvInsert × List MsgInsert × List BlockInsert)
  | [] => .ok ([], [], [])
  | (c, crows) :: rest =>
    match conv_msgs c u none crows with
    | .error e => .error e
    | .ok (ms, bs) =>
      match processConvBatch u rest with
      | .error e => .error e
      | .ok (cs2, ms2, bs2) => .ok (mkConv c crows u :: cs2, ms ++ ms2, bs ++ bs2)

/-- Emit all batches of one user's conversations in order. -/
def processBatches (u : String) :
    List (List (String × List LogRow)) →
    Except String (List ConvInsert × List MsgInsert × List BlockInsert)
  | [] => .ok ([], [], [])
  | batch :: rest =>
    match processConvBatch u batch with
    | .error e => .error e
    | .ok (cs, ms, bs) =>
      match processBatches u rest with
      | .error e => .error e
      | .ok (cs2, ms2, bs2) => .ok (cs ++ cs2, ms ++ ms2, bs ++ bs2)

/-- Process the per-user groups in pandas group-key order: group the
user's rows by chat id, sort each chat's rows by the turn key, aggregate
one conversation per chat, batch, and emit.  The counters mirror the
source's increments: +1 user per group, +batch size conversations, and +2
messages/+2 blocks per log row (equal to the number of emitted tuples). -/
def processUsers (filtered : List LogRow) (maxN : Nat) :
    List String →
    Except String (ConvMigStats × List ConvInsert × List MsgInsert × List BlockInsert)
  | [] =>
    .ok ({ users_processed := 0, conversations_processed := 0,
           messages_processed := 0, blocks_processed := 0 }, [], [], [])
  | u :: us =>
    let urows := filtered.filter (fun r => r.user_id = some u)
    let chats := sortedKeys (urows.filterMap (fun r => r.chat_id))
    let convPairs := chats.map (fun c =>
      (c, stable_sort log_key_le (urows.filter (fun r => r.chat_id = some c))))
    match processBatches u (chunkList maxN convPairs) with
    | .error e => .error e
    | .ok (cs, ms, bs) =>
      match processUsers filtered maxN us with
      | .error e => .error e
      | .ok (st, cs2, ms2, bs2) =>
        .ok ({ users_processed := 1 + st.users_processed,
               conversations_processed := cs.length + st.conversations_processed,
               messages_processed := ms.length + st.messages_processed,
               blocks_processed := bs.length + st.blocks_processed },
             cs ++ cs2, ms ++ ms2, bs ++ bs2)

/-- Embedding of `generate_conversations_logs_migration_sql`
(sql_generator.py line 1281): filter to rows with user and chat ids,
return zero stats on an empty result, otherwise process user groups in
sorted order. -/
def generate_conversations_logs_migration_sql (logs_df : List LogRow)
    (max_records_per_insert : Nat) :
    Except String (ConvMigStats × List ConvInsert × List MsgInsert × List BlockInsert) :=
  let logs := logs_df.filter (fun r => r.user_id.isSome && r.chat_id.isSome)
  if logs.isEmpty then
    .ok ({ users_processed := 0, conversations_processed := 0,
           messages_processed := 0, blocks_processed := 0 }, [], [], [])
  else
    processUsers logs max_records_per_insert
      (sortedKeys (logs.filterMap (fun r => r.user_id)))

/-- Two log rows sharing chat id `c` but held by two different users. -/
def c4Row1 : LogRow :=
  { id := some "l1", user_id := some "u1", chat_id := some "c",
    title := none, question := .qnone, question_in_english := none, answer := none,
    created_at := none, message_index := some 0, question_number := some 0,
    token_amount := none }

/-- The second row of the shared chat, held by user `u2`. -/
def c4Row2 : LogRow := { c4Row1 with id := some "l2", user_id := some "u2" }

/-- C4 counterexample: two rows sharing one chat_id, all with non-null
user_id and chat_id, produce TWO conversation tuples (both for chat `c`),
not one — the generator groups by user_id before chat_id, so a chat shared
between users is split into one conversation per user, and the two parent
chains are disjoint (`l2-user` has parent NULL, not `l1-assistant`). -/
theorem conversations_shared_chat_two_users :
    (generate_conversations_logs_migration_sql [c4Row1, c4Row2] 50).toOption.map
        (fun r => (r.1.conversations_processed,
          r.2.1.map (fun cv : ConvInsert => cv.chatId),
          r.2.2.1.map (fun mm : MsgInsert => (mm.idName, mm.parentIdName)))) =
      some (2, ["c", "c"],
        [("l1-user", none), ("l1-assistant", some "l1-user"),
         ("l2-user", none), ("l2-assistant", some "l2-user")]) := by
  rfl

lemma lexLt_irrefl (l : List Char) : lexLt l l = false := by
  induction l with
  | nil => rfl
  | cons c rest ih => simp [lexLt, ih]

lemma insertKey_self (u : String) : insertKey u [u] = [u] := by
  unfold insertKey
  rw [if_neg ?hlt, if_pos rfl]
  case hlt =>
    simp [pyStrLt, lexLt_irrefl]

lemma sortedKeys_const (l : List String) (u : String) (hne : l ≠ [])
    (hall : ∀ x ∈ l, x = u) : sortedKeys l = [u] := by
  have hstep : ∀ (rest : List String), (∀ x ∈ rest, x = u) →
      rest.foldl (fun acc k => insertKey k acc) [u] = [u] := by
    intro rest
    induction rest with
    | nil => intro _; rfl
    | cons x xs ih =>
      intro hx
      have hxu : x = u := hx x (by simp)
      rw [List.foldl_cons, hxu, insertKey_self]
      exact ih (fun y hy => hx y (by simp [hy]))
  cases l with
  | nil => exact absurd rfl hne
  | cons x xs =>
    have hxu : x = u := hall x (by simp)
    unfold sortedKeys
    rw [List.foldl_cons, hxu]
    show xs.foldl (fun acc k => insertKey k acc) (insertKey u []) = [u]
    rw [show insertKey u [] = [u] from rfl]
    exact hstep xs (fun y hy => hall y (by simp [hy]))

lemma stable_insert_length {α : Type} (le : α → α → Bool) (a : α) (l : List α) :
    (stable_insert le a l).length = l.length + 1 := by
  induction l with
  | nil => rfl
  | cons b bs ih =>
    unfold stable_insert
    by_cases h : le b a
    · simp [h, ih]
    · simp [h]

lemma stable_sort_length {α : Type} (le : α → α → Bool) (l : List α) :
    (stable_sort le l).length = l.length := by
  induction l with
  | nil => rfl
  | cons a as ih =>
    unfold stable_sort
    rw [stable_insert_length, ih, List.length_cons]

lemma stable_insert_mem {α : Type} (le : α → α → Bool) (a x : α) (l : List α) :
    x ∈ stable_insert le a l ↔ x = a ∨ x ∈ l := by
  induction l with
  | nil => simp [stable_insert]
  | cons b bs ih =>
    unfold stable_insert
    by_cases h : le b a = true
    · rw [if_pos h]
      simp only [List.mem_cons, ih]
      tauto
    · rw [if_neg h]
      simp only [List.mem_cons]

lemma stable_sort_mem {α : Type} (le : α → α → Bool) (x : α) (l : List α) :
    x ∈ stable_sort le l ↔ x ∈ l := by
  induction l with
  | nil => simp [stable_sort]
  | cons a as ih =>
    unfold stable_sort
    rw [stable_insert_mem, ih, List.mem_cons]

lemma extract_question_ok_of_not_ambiguous (q : QVal)
    (h : isAmbiguousArray q = false) :
    ∃ v, extract_question_from_jsonb q = .ok v := by
  cases q with
  | qnone => exact ⟨_, rfl⟩
  | qnan => exact ⟨_, rfl⟩
  | qdict fs => exact ⟨_, rfl⟩
  | qlist xs =>
    have hlen : xs.length ≤ 1 := by
      simp only [isAmbiguousArray, decide_eq_false_iff_not, not_le] at h
      omega
    unfold extract_question_from_jsonb
    dsimp only
    rw [if_pos hlen]
    exact ⟨_, rfl⟩
  | qstr s =>
    unfold extract_question_from_jsonb
    dsimp only
    by_cases hs : s = ""
    · rw [if_pos hs]; exact ⟨_, rfl⟩
    · rw [if_neg hs]
      cases json_loads_squote s with
      | error e => exact ⟨_, rfl⟩
      | ok j =>
        cases j with
        | jnull => exact ⟨_, rfl⟩
        | jbool b => exact ⟨_, rfl⟩
        | jnum n => exact ⟨_, rfl⟩
        | jstr t => exact ⟨_, rfl⟩
        | jobj fs => exact ⟨_, rfl⟩
        | jarr xs =>
          dsimp only
          by_cases hlen : xs.length > 1
          · rw [if_pos hlen]
            cases xs.get? 1 with
            | none => exact ⟨_, rfl⟩
            | some x =>
              cases x with
              | jobj fs =>
                dsimp only
                cases hq : jget fs "value" with
                | none => exact ⟨_, rfl⟩
                | some v => exact ⟨_, rfl⟩
              | jnull => exact ⟨_, rfl⟩
              | jbool b => exact ⟨_, rfl⟩
              | jnum n => exact ⟨_, rfl⟩
              | jstr t => exact ⟨_, rfl⟩
              | jarr ys => exact ⟨_, rfl⟩
          · rw [if_neg hlen]; exact ⟨_, rfl⟩

/-- The linked-list shape of one conversation's message tuples, relative
to an initial parent: user message at 2k, assistant at 2k+1, the assistant
chained to its user message, the user chained to the previous assistant
(the initial parent for the first turn). -/
def msg_chain (ms : List MsgInsert) (n : Nat) (prev0 : Option String) : Prop :=
  ∀ k, k < n →
    (ms.getD (2 * k) dummyMsg).role = "user" ∧
    (ms.getD (2 * k + 1) dummyMsg).role = "assistant" ∧
    (ms.getD (2 * k + 1) dummyMsg).parentIdName =
      some ((ms.getD (2 * k) dummyMsg).idName) ∧
    (ms.getD (2 * k) dummyMsg).parentIdName =
      (if k = 0 then prev0 else some ((ms.getD (2 * k - 1) dummyMsg).idName))

lemma conv_msgs_spec (chatId uk : String) (rows : List LogRow)
    (h : ∀ r ∈ rows, isAmbiguousArray r.question = false) :
    ∀ prev, ∃ ms bs, conv_msgs chatId uk prev rows = .ok (ms, bs) ∧
      ms.length = 2 * rows.length ∧ bs.length = 2 * rows.length ∧
      msg_chain ms rows.length prev := by
  induction rows with
  | nil =>
    intro prev
    exact ⟨[], [], rfl, rfl, rfl, fun k hk => by simp at hk⟩
  | cons r rest ih =>
    intro prev
    obtain ⟨v, hv⟩ := extract_question_ok_of_not_ambiguous r.question (h r (by simp))
    obtain ⟨ms, bs, hok, hmlen, hblen, hchain⟩ :=
      ih (fun x hx => h x (by simp [hx]))
        (some (pyRenderOptStr (clean_string r.id) ++ "-assistant"))
    refine ⟨mkUserMsg chatId uk prev (pyRenderOptStr (clean_string r.id)) ::
        mkAsstMsg chatId uk (pyRenderOptStr (clean_string r.id)) :: ms,
      mkUserBlock r (pyRenderOptStr (clean_string r.id)) v ::
        mkAsstBlock r (pyRenderOptStr (clean_string r.id)) :: bs,
      ?_, ?_, ?_, ?_⟩
    · show conv_msgs chatId uk prev (r :: rest) = _
      unfold conv_msgs
      rw [hv]
      dsimp only
      rw [hok]
    · rw [List.length_cons, List.length_cons, List.length_cons, hmlen]
      omega
    · rw [List.length_cons, List.length_cons, List.length_cons, hblen]
      omega
    · intro k hk
      cases k with
      | zero =>
        refine ⟨rfl, rfl, rfl, ?_⟩
        rw [if_pos rfl]
        rfl
      | succ j =>
        have hj : j < rest.length := by
          simp only [List.length_cons] at hk
          omega
        have hidx : 2 * (j + 1) = (2 * j) + 1 + 1 := by omega
        have hidx1 : 2 * (j + 1) + 1 = (2 * j + 1) + 1 + 1 := by omega
        obtain ⟨hrole, harole, haparent, huparent⟩ := hchain j hj
        have g1 : ∀ a b : MsgInsert,
            List.getD (a :: b :: ms) (2 * (j + 1)) dummyMsg =
              ms.getD (2 * j) dummyMsg := by
          intro a b
          rw [hidx, List.getD_cons_succ, List.getD_cons_succ]
        have g2 : ∀ a b : MsgInsert,
            List.getD (a :: b :: ms) (2 * (j + 1) + 1) dummyMsg =
              ms.getD (2 * j + 1) dummyMsg := by
          intro a b
          rw [hidx1, List.getD_cons_succ, List.getD_cons_succ]
        refine ⟨?_, ?_, ?_, ?_⟩
        · rw [g1]; exact hrole
        · rw [g2]; exact harole
        · rw [g2, g1]; exact haparent
        · rw [g1, if_neg (by omega)]
          cases j with
          | zero =>
            rw [huparent, if_pos rfl]
            rfl
          | succ i =>
            rw [huparent, if_neg (by omega)]
            have g3 : ∀ a b : MsgInsert,
                List.getD (a :: b :: ms) (2 * (i + 1 + 1) - 1) dummyMsg =
                  ms.getD (2 * (i + 1) - 1) dummyMsg := by
              intro a b
              have hx : 2 * (i + 1 + 1) - 1 = (2 * (i + 1) - 1) + 1 + 1 := by omega
              rw [hx, List.getD_cons_succ, List.getD_cons_succ]
            rw [g3]

lemma chunkList_singleton {α : Type} (n : Nat) (x : α) (hn : 1 ≤ n) :
    chunkList n [x] = [[x]] := by
  have h1 : ([x] : List α).take n = [x] := List.take_of_length_le (by simpa using hn)
  have h2 : ([x] : List α).drop n = [] := List.drop_eq_nil_of_le (by simpa using hn)
  have hstep : chunkList n [x] = ([x] : List α).take n :: chunkListGo n 1 (([x] : List α).drop n) := rfl
  rw [hstep, h1, h2]
  rfl

lemma filterMap_proj_const {β : Type} [DecidableEq β] (logs : List LogRow)
    (f : LogRow → Option β) (u : β) (hall : ∀ r ∈ logs, f r = some u) :
    ∀ x ∈ logs.filterMap f, x = u := by
  intro x hx
  rw [List.mem_filterMap] at hx
  obtain ⟨r, hr, hrx⟩ := hx
  rw [hall r hr] at hrx
  exact (Option.some_inj.mp hrx).symm

lemma filterMap_proj_ne_nil {β : Type} (logs : List LogRow)
    (f : LogRow → Option β) (u : β) (hne : logs ≠ [])
    (hall : ∀ r ∈ logs, f r = some u) : logs.filterMap f ≠ [] := by
  cases logs with
  | nil => exact absurd rfl hne
  | cons r rest =>
    have hmem : u ∈ (r :: rest).filterMap f :=
      List.mem_filterMap.mpr ⟨r, by simp, hall r (by simp)⟩
    intro hnil
    rw [hnil] at hmem
    simp at hmem

/-- C4 amended: for every nonempty logs dataframe whose rows share ONE
user_id and one chat_id (all non-null, questions decodable), the generator
produces exactly 1 conversation tuple, exactly 2N message tuples and
exactly 2N content-block tuples, and the messages form a single linked
list ordered by turn: assistant k chained to user k, user k chained to
assistant k-1, the first user message to NULL. -/
theorem conversations_fanout_single_chat (logs : List LogRow) (u c : String)
    (hne : logs ≠ [])
    (hall : ∀ r ∈ logs, r.user_id = some u ∧ r.chat_id = some c ∧
      isAmbiguousArray r.question = false) :
    ∃ convs ms bs,
      generate_conversations_logs_migration_sql logs 50 =
        Except.ok
          ({ users_processed := 1, conversations_processed := 1,
             messages_processed := 2 * logs.length,
             blocks_processed := 2 * logs.length }, convs, ms, bs) ∧
      convs.length = 1 ∧
      ms.length = 2 * logs.length ∧ bs.length = 2 * logs.length ∧
      msg_chain ms logs.length none := by
  have hfil : logs.filter (fun r => r.user_id.isSome && r.chat_id.isSome) = logs := by
    rw [List.filter_eq_self]
    intro r hr
    obtain ⟨h1, h2, _⟩ := hall r hr
    simp [h1, h2]
  have hfilu : logs.filter (fun r => r.user_id = some u) = logs := by
    rw [List.filter_eq_self]
    intro r hr
    simp [(hall r hr).1]
  have hfilc : logs.filter (fun r => r.chat_id = some c) = logs := by
    rw [List.filter_eq_self]
    intro r hr
    simp [(hall r hr).2.1]
  have hnem : logs.isEmpty = false := by
    cases logs with
    | nil => exact absurd rfl hne
    | cons a as => rfl
  have huk : sortedKeys (logs.filterMap (fun r => r.user_id)) = [u] :=
    sortedKeys_const _ u
      (filterMap_proj_ne_nil logs _ u hne (fun r hr => (hall r hr).1))
      (filterMap_proj_const logs _ u (fun r hr => (hall r hr).1))
  have hck : sortedKeys (logs.filterMap (fun r => r.chat_id)) = [c] :=
    sortedKeys_const _ c
      (filterMap_proj_ne_nil logs _ c hne (fun r hr => (hall r hr).2.1))
      (filterMap_proj_const logs _ c (fun r hr => (hall r hr).2.1))
  have hsall : ∀ r ∈ stable_sort log_key_le logs, isAmbiguousArray r.question = false :=
    fun r hr => (hall r ((stable_sort_mem log_key_le r logs).mp hr)).2.2
  obtain ⟨ms, bs, hconv, hmlen, hblen, hchain⟩ :=
    conv_msgs_spec c u (stable_sort log_key_le logs) hsall none
  have hslen : (stable_sort log_key_le logs).length = logs.length :=
    stable_sort_length log_key_le logs
  have hbatch : processConvBatch u [(c, stable_sort log_key_le logs)] =
      Except.ok ([mkConv c (stable_sort log_key_le logs) u], ms, bs) := by
    unfold processConvBatch
    rw [hconv]
    dsimp only
    show Except.ok ([mkConv c (stable_sort log_key_le logs) u], ms ++ [], bs ++ []) = _
    rw [List.append_nil, List.append_nil]
  have hbatches : processBatches u [[(c, stable_sort log_key_le logs)]] =
      Except.ok ([mkConv c (stable_sort log_key_le logs) u], ms, bs) := by
    unfold processBatches
    rw [hbatch]
    dsimp only
    show Except.ok ([mkConv c (stable_sort log_key_le logs) u] ++ [], ms ++ [], bs ++ []) = _
    rw [List.append_nil, List.append_nil, List.append_nil]
  have husers : processUsers logs 50 [u] =
      Except.ok
        ({ users_processed := 1, conversations_processed := 1,
           messages_processed := 2 * logs.length,
           blocks_processed := 2 * logs.length },
         [mkConv c (stable_sort log_key_le logs) u], ms, bs) := by
    unfold processUsers
    dsimp only
    rw [hfilu, hck]
    rw [show ([c].map (fun c2 => (c2, stable_sort log_key_le (logs.filter (fun r => r.chat_id = some c2))))) = [(c, stable_sort log_key_le logs)] by rw [List.map_cons, List.map_nil, hfilc]]
    rw [chunkList_singleton 50 _ (by omega), hbatches]
    dsimp only
    show Except.ok _ = _
    rw [List.append_nil, List.append_nil, List.append_nil]
    have hm2 : ms.length = 2 * logs.length := by rw [hmlen, hslen]
    have hb2 : bs.length = 2 * logs.length := by rw [hblen, hslen]
    rw [hm2, hb2]
    simp
  refine ⟨[mkConv c (stable_sort log_key_le logs) u], ms, bs, ?_, rfl, ?_, ?_, ?_⟩
  · unfold generate_conversations_logs_migration_sql
    rw [hfil]
    simp only [hnem, Bool.false_eq_true, if_false, huk]
    exact husers
  · rw [hmlen, hslen]
  · rw [hblen, hslen]
  · rw [← hslen]
    exact hchain

/-- The second turn of the single-user chat `c`. -/
def c4Turn2 : LogRow := { c4Row1 with id := some "l2", message_index := some 1 }

/-- C4 amended witness: the fan-out theorem applied to a concrete
two-turn single-user chat. -/
theorem conversations_fanout_single_chat_witness :
    ∃ convs ms bs,
      generate_conversations_logs_migration_sql [c4Row1, c4Turn2] 50 =
        Except.ok
          ({ users_processed := 1, conversations_processed := 1,
             messages_processed := 2 * ([c4Row1, c4Turn2] : List LogRow).length,
             blocks_processed := 2 * ([c4Row1, c4Turn2] : List LogRow).length },
           convs, ms, bs) ∧
      convs.length = 1 ∧
      ms.length = 2 * ([c4Row1, c4Turn2] : List LogRow).length ∧
      bs.length = 2 * ([c4Row1, c4Turn2] : List LogRow).length ∧
      msg_chain ms ([c4Row1, c4Turn2] : List LogRow).length none :=
  conversations_fanout_single_chat [c4Row1, c4Turn2] "u1" "c" (by simp)
    (by
      intro r hr
      rcases List.mem_cons.mp hr with h | h
      · subst h; exact ⟨rfl, rfl, rfl⟩
      · rcases List.mem_cons.mp h with h2 | h2
        · subst h2; exact ⟨rfl, rfl, rfl⟩
        · simp at h2)

/-! ### The full extraction pipeline (extraction.py lines 473-610,
config.py line 91) -/

/-- The `EXTRACTION_ORDER` constant (config.py line 91). -/
def EXTRACTION_ORDER : List String :=
  ["users_groups", "users", "folders", "custom_documents", "embeddings", "agents"]

/-- One row of the users query result, restricted to the columns the
pipeline control flow reads (`id`, `__group_id__`). -/
structure ExtUserRec where
  id : Option String
  group_id : Option String
  deriving Repr, DecidableEq

/-- What the source database returns for this run (the model assumes the
executed queries succeed; the per-run `except` clause only handles query
failures). -/
structure ExtractionEnv where
  usersResult : List ExtUserRec
  docsResult : List String
  deriving Repr, DecidableEq

/-- The explicit id allow-lists passed by the caller. -/
structure ExtractionInputs where
  selected_doc_ids : Option (List String)
  selected_embedding_ids : Option (List String)
  selected_agent_ids : Option (List String)
  deriving Repr, DecidableEq

/-- Does `extract_documents` execute a query?  (`selected_doc_ids = []`
returns an empty dataframe without querying, extraction.py line 264.) -/
def docsQueriedB : Option (List String) → Bool
  | some [] => false
  | _ => true

/-- Does the stage guarded by an allow-list execute a query?  (An empty
allow-list short-circuits without querying.) -/
def allowListQueriesB : Option (List String) → Bool
  | some [] => false
  | _ => true

/-- A stage that is queried only when `b` holds. -/
def optionalStage (b : Bool) (name : String) : List String :=
  if b then [name] else []

/-- Embedding of the control flow of `ExtractionEngine.run_full_extraction`
(extraction.py lines 473-610), reduced to the sequence of entity stages
whose source-table query is executed, paired with the returned error
list.  Users are queried first; if no user ids resolve, the pipeline
records an error and returns with nothing further queried; user groups
are queried only when the extracted users carry group ids; embeddings
only when documents were found; documents/embeddings/agents are skipped
when their allow-list is present but empty. -/
def run_full_extraction_trace (env : ExtractionEnv) (inp : ExtractionInputs) :
    List String × List String :=
  let user_ids := env.usersResult.map (fun u => u.id)
  if user_ids.isEmpty then
    (["users"], ["No users found matching the selected emails."])
  else
    let group_ids := env.usersResult.filterMap (fun u => u.group_id)
    let docsQueried := docsQueriedB inp.selected_doc_ids
    let doc_ids := if docsQueried then env.docsResult else []
    (["users"] ++
       optionalStage (!group_ids.isEmpty) "users_groups" ++
       ["folders"] ++
       optionalStage docsQueried "documents" ++
       optionalStage (!doc_ids.isEmpty && allowListQueriesB inp.selected_embedding_ids)
         "embeddings" ++
       optionalStage (allowListQueriesB inp.selected_agent_ids) "agents" ++
       ["logs"],
     [])

/-- A run with one grouped user and one document, no allow-lists. -/
def c6Env : ExtractionEnv :=
  { usersResult := [{ id := some "u1", group_id := some "g1" }],
    docsResult := ["d1"] }

/-- No allow-lists supplied. -/
def c6Inp : ExtractionInputs :=
  { selected_doc_ids := none, selected_embedding_ids := none,
    selected_agent_ids := none }

/-- C6 counterexample: the pipeline queries Users FIRST and UserGroups
second (the groups query filters on the group ids resolved from the
extracted users), so UserGroups is never queried before Users — contrary
to the claim (and to the order suggested by the `EXTRACTION_ORDER`
constant, which `run_full_extraction` does not follow). -/
theorem extraction_queries_users_before_user_groups :
    (run_full_extraction_trace c6Env c6Inp).1 =
      ["users", "users_groups", "folders", "documents", "embeddings", "agents", "logs"] ∧
    (run_full_extraction_trace c6Env c6Inp).1.indexOf "users" <
      (run_full_extraction_trace c6Env c6Inp).1.indexOf "users_groups" ∧
    EXTRACTION_ORDER.indexOf "users_groups" < EXTRACTION_ORDER.indexOf "users" := by
  refine ⟨by decide, by decide, by decide⟩

lemma optionalStage_sublist (b : Bool) (x : String) :
    (optionalStage b x).Sublist [x] := by
  cases b with
  | false => exact List.nil_sublist [x]
  | true => exact List.Sublist.refl [x]

/-- C6 amended: the pipeline queries Users first, and the executed stages
always appear in the fixed order Users, UserGroups, Folders, Documents,
Embeddings, Agents, Logs (optional stages skipped when their filter set is
empty) — i.e. the trace is a subsequence of that order and starts with
Users, never with UserGroups. -/
theorem extraction_stage_order (env : ExtractionEnv) (inp : ExtractionInputs) :
    (run_full_extraction_trace env inp).1.Sublist
      ["users", "users_groups", "folders", "documents", "embeddings", "agents", "logs"] ∧
    (run_full_extraction_trace env inp).1.head? = some "users" := by
  unfold run_full_extraction_trace
  by_cases hu : (env.usersResult.map (fun u => u.id)).isEmpty
  · rw [if_pos hu]
    constructor
    · exact (List.Sublist.refl ["users"]).trans (by simp)
    · rfl
  · rw [if_neg hu]
    constructor
    · show (["users"] ++ _ ++ ["folders"] ++ _ ++ _ ++ _ ++ ["logs"]).Sublist
        (["users"] ++ ["users_groups"] ++ ["folders"] ++ ["documents"] ++
          ["embeddings"] ++ ["agents"] ++ ["logs"])
      exact List.Sublist.append
        (List.Sublist.append
          (List.Sublist.append
            (List.Sublist.append
              (List.Sublist.append
                (List.Sublist.append (List.Sublist.refl ["users"])
                  (optionalStage_sublist _ _))
                (List.Sublist.refl ["folders"]))
              (optionalStage_sublist _ _))
            (optionalStage_sublist _ _))
          (optionalStage_sublist _ _))
        (List.Sublist.refl ["logs"])
    · rfl

/-- C6 amended witness: the order theorem applied to the concrete run. -/
theorem extraction_stage_order_witness :
    (run_full_extraction_trace c6Env c6Inp).1.Sublist
      ["users", "users_groups", "folders", "documents", "embeddings", "agents", "logs"] ∧
    (run_full_extraction_trace c6Env c6Inp).1.head? = some "users" :=
  extraction_stage_order c6Env c6Inp

/-- C8: when the users stage resolves zero user ids, the pipeline records
the error and returns immediately: the only queried stage is Users — no
user groups, folders, documents, chunks/embeddings, agents or logs query
is executed. -/
theorem extraction_halts_on_zero_users (env : ExtractionEnv)
    (inp : ExtractionInputs) (h : env.usersResult = []) :
    run_full_extraction_trace env inp =
      (["users"], ["No users found matching the selected emails."]) := by
  unfold run_full_extraction_trace
  rw [h]
  rfl

/-- C8 witness: the halt theorem applied to an environment resolving no
users. -/
theorem extraction_halts_on_zero_users_witness :
    run_full_extraction_trace { usersResult := [], docsResult := [] } c6Inp =
      (["users"], ["No users found matching the selected emails."]) :=
  extraction_halts_on_zero_users _ c6Inp rfl






end DbMigrator
